import Mathlib

set_option maxRecDepth 8000

/-!
Verification of the skill-evals experiment runner.

This file gives a shallow embedding of the core of the repository
(src/runner.ts, src/agent-runner.ts, src/comparison.ts, src/types.ts):
the output extractor, the check-runner result interpretation, the
direct-call and agent-session trial construction, the per-eval and
per-experiment aggregation, the experiment comparator, the workspace
naming scheme, and the agent timeout machinery.  JavaScript numbers used
for pass rates are modelled as rationals; machine strings are modelled
as Lean strings (lists of characters).  Fallible steps are modelled with
Except / Option.  The theorems below settle the frozen claims about the
program.
-/

namespace SkillEvals

/-! ## Character and string helpers

Models of the JavaScript string primitives used by the source:
`String.prototype.trim`, `split("\n")`, template-literal number
rendering, and the character classes of the extraction regexes. -/

/-- Model of the JavaScript whitespace class `\s` (and of the trim
character class) restricted to the characters that occur in the inputs
considered here. -/
def isWs (c : Char) : Bool := c.isWhitespace

/-- Model of `String.prototype.trim` on a list of characters. -/
def trimList (l : List Char) : List Char :=
  ((l.dropWhile isWs).reverse.dropWhile isWs).reverse

/-- Model of `split("\n")`: cut a character list at every newline,
keeping empty pieces, exactly as the JavaScript split does. -/
def splitLinesAux : List Char → List Char → List (List Char)
  | [], cur => [cur.reverse]
  | c :: rest, cur =>
    if c = '\n' then cur.reverse :: splitLinesAux rest []
    else splitLinesAux rest (c :: cur)

def splitLines (l : List Char) : List (List Char) := splitLinesAux l []

/-- The backtick character, written by code point to keep the source free
of stray backticks outside strings. -/
def btick : Char := Char.ofNat 96

/-- Decimal digits of a natural number, least significant first, driven
by a structurally decreasing fuel so that the kernel can evaluate it.
With fuel at least n this is the usual base-10 digit list. -/
def digitsAuxF : Nat → Nat → List Nat
  | 0, _ => []
  | _ + 1, 0 => []
  | fuel + 1, n + 1 => ((n + 1) % 10) :: digitsAuxF fuel ((n + 1) / 10)

def decDigitsRev (n : Nat) : List Nat := digitsAuxF n n

/-- Recompose a least-significant-first digit list. -/
def ofDigits10 : List Nat → Nat
  | [] => 0
  | d :: rest => d + 10 * ofDigits10 rest

theorem ofDigits10_digitsAuxF : ∀ (fuel n : Nat), n ≤ fuel →
    ofDigits10 (digitsAuxF fuel n) = n := by
  intro fuel
  induction fuel with
  | zero => intro n hn; interval_cases n; rfl
  | succ f ih =>
    intro n hn
    match n with
    | 0 => rfl
    | m + 1 =>
      have hdiv : (m + 1) / 10 ≤ f := by
        have h1 : (m + 1) / 10 < m + 1 := Nat.div_lt_self (Nat.succ_pos m) (by omega)
        omega
      simp only [digitsAuxF, ofDigits10, ih _ hdiv]
      omega

theorem ofDigits10_decDigitsRev (n : Nat) : ofDigits10 (decDigitsRev n) = n :=
  ofDigits10_digitsAuxF n n (Nat.le_refl n)

theorem digitsAuxF_lt_ten : ∀ (fuel n : Nat), ∀ d ∈ digitsAuxF fuel n, d < 10 := by
  intro fuel
  induction fuel with
  | zero => intro n d hd; simp [digitsAuxF] at hd
  | succ f ih =>
    intro n d hd
    match n with
    | 0 => simp [digitsAuxF] at hd
    | m + 1 =>
      simp only [digitsAuxF, List.mem_cons] at hd
      rcases hd with h | h
      · subst h; exact Nat.mod_lt _ (by omega)
      · exact ih _ d h

/-- Render a digit as a character, as JavaScript number-to-string does. -/
def digitToChar (d : Nat) : Char := Char.ofNat (48 + d)

theorem digitToChar_inj : ∀ d < 10, ∀ e < 10,
    digitToChar d = digitToChar e → d = e := by decide

/-- Model of JavaScript template-literal rendering of a nonnegative
integer (decimal, no sign, no padding). -/
def natToString (n : Nat) : String :=
  if n = 0 then "0" else String.mk ((decDigitsRev n).reverse.map digitToChar)

theorem map_digitToChar_inj : ∀ (l1 l2 : List Nat),
    (∀ d ∈ l1, d < 10) → (∀ d ∈ l2, d < 10) →
    l1.map digitToChar = l2.map digitToChar → l1 = l2 := by
  intro l1
  induction l1 with
  | nil => intro l2 _ _ h; cases l2 <;> simp_all
  | cons a t ih =>
    intro l2 h1 h2 h
    cases l2 with
    | nil => simp at h
    | cons b t2 =>
      simp only [List.map_cons, List.cons.injEq] at h
      have ha : a = b :=
        digitToChar_inj a (h1 a (List.mem_cons_self a t)) b
          (h2 b (List.mem_cons_self b t2)) h.1
      have ht : t = t2 :=
        ih t2 (fun d hd => h1 d (List.mem_cons_of_mem _ hd))
          (fun d hd => h2 d (List.mem_cons_of_mem _ hd)) h.2
      rw [ha, ht]

theorem natToString_inj : Function.Injective natToString := by
  intro m n h
  unfold natToString at h
  by_cases hm : m = 0 <;> by_cases hn : n = 0
  · omega
  · exfalso
    simp only [hm, if_pos rfl, if_neg hn] at h
    have hdata : ['0'] = (decDigitsRev n).reverse.map digitToChar :=
      congrArg String.data h
    have h0 : ['0'] = List.map digitToChar [0] := by decide
    have hrev : ([0] : List Nat) = (decDigitsRev n).reverse := by
      refine map_digitToChar_inj [0] ((decDigitsRev n).reverse) ?_ ?_ ?_
      · intro d hd; simp at hd; omega
      · intro d hd
        exact digitsAuxF_lt_ten n n d (List.mem_reverse.mp hd)
      · rw [← h0, hdata]
    have hdig : decDigitsRev n = [0] := by
      have := congrArg List.reverse hrev
      simpa using this.symm
    have := ofDigits10_decDigitsRev n
    rw [hdig] at this
    simp [ofDigits10] at this
    omega
  · exfalso
    simp only [hn, if_pos rfl, if_neg hm] at h
    have hdata : (decDigitsRev m).reverse.map digitToChar = ['0'] :=
      congrArg String.data h
    have h0 : ['0'] = List.map digitToChar [0] := by decide
    have hrev : (decDigitsRev m).reverse = ([0] : List Nat) := by
      refine map_digitToChar_inj ((decDigitsRev m).reverse) [0] ?_ ?_ ?_
      · intro d hd
        exact digitsAuxF_lt_ten m m d (List.mem_reverse.mp hd)
      · intro d hd; simp at hd; omega
      · rw [← h0]; exact hdata
    have hdig : decDigitsRev m = [0] := by
      have := congrArg List.reverse hrev
      simpa using this
    have := ofDigits10_decDigitsRev m
    rw [hdig] at this
    simp [ofDigits10] at this
    omega
  · simp only [if_neg hm, if_neg hn] at h
    have hdata : (decDigitsRev m).reverse.map digitToChar
        = (decDigitsRev n).reverse.map digitToChar := congrArg String.data h
    have hrev : (decDigitsRev m).reverse = (decDigitsRev n).reverse := by
      refine map_digitToChar_inj _ _ ?_ ?_ hdata
      · intro d hd; exact digitsAuxF_lt_ten m m d (List.mem_reverse.mp hd)
      · intro d hd; exact digitsAuxF_lt_ten n n d (List.mem_reverse.mp hd)
    have hdig : decDigitsRev m = decDigitsRev n := by
      have := congrArg List.reverse hrev
      simpa using this
    calc m = ofDigits10 (decDigitsRev m) := (ofDigits10_decDigitsRev m).symm
      _ = ofDigits10 (decDigitsRev n) := by rw [hdig]
      _ = n := ofDigits10_decDigitsRev n

/-! ## Data model (src/types.ts) -/

/-- Token usage information from the model API (types.ts `Usage`). -/
structure Usage where
  inputTokens : Nat
  outputTokens : Nat
  deriving DecidableEq, Repr

/-- Result of a single eval run (types.ts `RunResult`).  Optional
JavaScript fields become `Option`. -/
structure RunResult where
  runNumber : Nat
  passed : Bool
  testsPassed : Nat
  testsTotal : Nat
  durationMs : Nat
  error : Option String := none
  agentOutput : Option String := none
  generatedFiles : Option (List String) := none
  usage : Option Usage := none
  deriving DecidableEq, Repr

/-- Aggregated results for an eval across runs (types.ts `EvalResult`).
`passRate` and `avgDurationMs` are JavaScript numbers; they are modelled
as rationals. -/
structure EvalResult where
  evalName : String
  totalRuns : Nat
  passedRuns : Nat
  passRate : ℚ
  runs : List RunResult
  avgDurationMs : ℚ
  totalUsage : Option Usage := none
  deriving DecidableEq, Repr

/-- Experiment-level aggregate (types.ts `ExperimentResult`), restricted
to the fields the claims are about. -/
structure ExperimentResultM where
  experimentName : String
  evalResults : List EvalResult
  overallPassRate : ℚ
  totalUsage : Option Usage := none
  deriving DecidableEq, Repr

/-- Per-eval comparison entry (types.ts `EvalComparison`). -/
structure EvalComparison where
  evalName : String
  baselinePassRate : ℚ
  withSkillPassRate : ℚ
  improvement : ℚ
  baselineRuns : Nat
  withSkillRuns : Nat
  deriving DecidableEq, Repr

/-- Comparison of two experiments (types.ts `ComparisonResult`),
restricted to the derived fields. -/
structure ComparisonResult where
  evalComparisons : List EvalComparison
  overallImprovement : ℚ
  deriving DecidableEq, Repr

/-- Outcome of a check-runner invocation as produced by `runEvalTests`
in runner.ts. -/
structure TestOutcome where
  passed : Bool
  testsPassed : Nat
  testsTotal : Nat
  output : String
  deriving DecidableEq, Repr

/-! ## File maps

The extractor returns a JavaScript `Map<string, string>`: insertion
order is kept, and `set` on an existing key overwrites in place. -/

abbrev FileMap := List (String × String)

/-- Model of `Map.prototype.set`. -/
def mapSet (m : FileMap) (k v : String) : FileMap :=
  if m.any (fun p => p.1 == k) then
    m.map (fun p => if p.1 == k then (k, v) else p)
  else m ++ [(k, v)]

def keys (m : FileMap) : List String := m.map (·.1)

/-! ## Output extractor, primary pass (runner.ts `parseGeneratedFiles`)

The primary pass is the regex

  three backticks, optional language tag (typescript|ts|javascript|js),
  newline, optional `// filename` line, lazy content, newline, three
  backticks, lookahead (whitespace then newline, or end of input)

executed repeatedly over the response.  The functions below implement
exactly that backtracking match on character lists. -/

/-- Match a literal prefix, returning the remainder. -/
def stripLit (p : List Char) (l : List Char) : Option (List Char) :=
  if l.take p.length = p then some (l.drop p.length) else none

/-- The newline branch of the close-fence lookahead: a newline reachable
from the current position through whitespace only.  Reaching the end of
the input without a newline fails this branch. -/
def closeLookaheadNl : List Char → Bool
  | [] => false
  | c :: rest => if c = '\n' then true else if isWs c then closeLookaheadNl rest else false

/-- The lookahead after a closing fence, `(?=\s*\n|$)` without the
multiline flag: either some whitespace followed by a newline, or the
true end of the input at the lookahead position itself (the dollar
anchor matches only there, not after consuming trailing whitespace). -/
def closeLookahead (l : List Char) : Bool :=
  l.isEmpty || closeLookaheadNl l

/-- Optional language tag followed by the required newline.  The regex
alternatives are tried in source order; at most one alternative is
consistent with the following newline, so the match is deterministic. -/
def matchLangNl (l : List Char) : Option (List Char) :=
  match stripLit ("typescript\n".data) l with
  | some r => some r
  | none =>
    match stripLit ("ts\n".data) l with
    | some r => some r
    | none =>
      match stripLit ("javascript\n".data) l with
      | some r => some r
      | none =>
        match stripLit ("js\n".data) l with
        | some r => some r
        | none => stripLit ("\n".data) l

/-- The body of the optional filename group after the two slashes:
greedy whitespace run, then a nonempty newline-free capture, then the
terminating newline.  Tried at the current stop point of the whitespace
run. -/
def fnameHere (l : List Char) : Option (List Char × List Char) :=
  let x := l.takeWhile (fun c => c ≠ '\n')
  let rest := l.dropWhile (fun c => c ≠ '\n')
  match x, rest with
  | [], _ => none
  | _, [] => none
  | _, _ :: after => some (x, after)

/-- All matches of the optional filename-group body after the two
slashes, one per stop point of the greedy whitespace run (the regex
class of that run also matches newlines), in engine preference order:
the longest whitespace run first, then each shorter one.  At a fixed
stop point the rest of the group is deterministic (`fnameHere`), so the
stop points enumerate the whole backtracking of the group. -/
def fnameCandidates : List Char → List (List Char × List Char)
  | [] => []
  | c :: rest =>
    if isWs c then
      fnameCandidates rest ++
        (match fnameHere (c :: rest) with
         | some r => [r]
         | none => [])
    else
      match fnameHere (c :: rest) with
      | some r => [r]
      | none => []

/-- Candidate matches of the whole optional group
`// \s* capture newline`, in engine preference order. -/
def tryFilenameList (l : List Char) : List (List Char × List Char) :=
  match stripLit ("//".data) l with
  | some afterSlashes => fnameCandidates afterSlashes
  | none => []

/-- Lazy content up to the first newline-then-fence position whose
lookahead succeeds; returns the content and the remainder after the
closing fence. -/
def findClose : List Char → Option (List Char × List Char)
  | [] => none
  | c :: rest =>
    if c = '\n' ∧ rest.take 3 = "```".data ∧ closeLookahead (rest.drop 3) then
      some ([], rest.drop 3)
    else
      match findClose rest with
      | some (content, after) => some (c :: content, after)
      | none => none

/-- Try the filename-group candidates in preference order: when a
candidate admits no closing fence the engine backtracks to the next
whitespace split, and only after every candidate fails does it abandon
the optional group and restart the content from right after the opening
newline. -/
def tryWithCandidates (afterNl : List Char) :
    List (List Char × List Char) →
      Option (Option (List Char) × List Char × List Char)
  | [] =>
    match findClose afterNl with
    | some (content, after) => some (none, content, after)
    | none => none
  | (fname, afterFname) :: more =>
    match findClose afterFname with
    | some (content, after) => some (some fname, content, after)
    | none => tryWithCandidates afterNl more

/-- Attempt the full regex at the current position. -/
def tryMatchAt (l : List Char) : Option (Option (List Char) × List Char × List Char) :=
  match stripLit ("```".data) l with
  | none => none
  | some afterTicks =>
    match matchLangNl afterTicks with
    | none => none
    | some afterNl => tryWithCandidates afterNl (tryFilenameList afterNl)

/-- `filename.trim().replace(slash-at-start, "")` from the primary pass. -/
def cleanFilename (fname : List Char) : String :=
  let t := trimList fname
  String.mk (match t with
    | c :: rest => if c = '/' then rest else c :: rest
    | [] => [])

/-- The repeated `exec` loop of the primary pass.  The fuel is the input
length; every successful match consumes at least one character, so the
fuel never runs out on the initial call. -/
def primaryLoop : Nat → List Char → FileMap → FileMap
  | 0, _, acc => acc
  | _ + 1, [], acc => acc
  | fuel + 1, c :: rest, acc =>
    match tryMatchAt (c :: rest) with
    | some (fnameOpt, content, after) =>
      let acc2 :=
        match fnameOpt with
        | some fname =>
          if fname ≠ [] ∧ content ≠ [] then
            mapSet acc (cleanFilename fname) (String.mk (trimList content))
          else acc
        | none => acc
      primaryLoop fuel after acc2
    | none => primaryLoop fuel rest acc

/-- The primary regex pass of `parseGeneratedFiles`. -/
def primaryExtract (response : String) : FileMap :=
  primaryLoop (response.data.length + 1) response.data []

/-! ## Output extractor, fallback pass
(runner.ts `extractCodeBlocksWithNestedBackticks`) -/

/-- An opening fence line: the trimmed line is exactly a fence with a
recognized language tag, and the raw line starts with the fence. -/
def isOpenFence (line : List Char) : Bool :=
  let t := trimList line
  (t == "```".data || t == "```typescript".data || t == "```ts".data ||
    t == "```javascript".data || t == "```js".data) &&
  line.take 3 == "```".data

/-- The fallback filename-line test: `//`, anything, and a `.ts`, `.js`,
`.tsx` or `.jsx` suffix with at least one character before the dot. -/
def isFallbackFilenameLine (line : List Char) : Bool :=
  line.take 2 == "//".data &&
  (let t := line.drop 2
   (".ts".data.isSuffixOf t && decide (t.length ≥ 4)) ||
   (".js".data.isSuffixOf t && decide (t.length ≥ 4)) ||
   (".tsx".data.isSuffixOf t && decide (t.length ≥ 5)) ||
   (".jsx".data.isSuffixOf t && decide (t.length ≥ 5)))

/-- `line.replace(leading-slashes-and-whitespace, "").trim()`. -/
def fallbackFilenameChars (line : List Char) : List Char :=
  trimList ((line.drop 2).dropWhile isWs)

/-- Does p occur as a contiguous segment of l (JavaScript
`String.prototype.includes`)? -/
def containsSeq (p : List Char) : List Char → Bool
  | [] => p.isEmpty
  | c :: rest => (c :: rest).take p.length == p || containsSeq p rest

/-- A nested fence marker: a fence preceded by comment-star or
indentation (the two regexes of the source, in the same order). -/
def isNestedMarker (line : List Char) : Bool :=
  (match line.dropWhile isWs with
   | c :: rest => c == '*' && (rest.dropWhile isWs).take 3 == "```".data
   | [] => false) ||
  (match line with
   | c :: _ => isWs c && (line.dropWhile isWs).take 3 == "```".data
   | [] => false)

/-- `filename.replace(slash-at-start, "")` from the fallback close. -/
def fallbackClean (f : List Char) : String :=
  String.mk (match f with
    | c :: rest => if c = '/' then rest else c :: rest
    | [] => [])

/-- Join accumulated lines with newlines and trim, as
`codeBlockContent.join("\n").trim()`. -/
def joinTrim (content : List (List Char)) : String :=
  String.mk (trimList (List.intercalate ("\n".data) content))

/-- Scanner state of the fallback pass. -/
structure FbState where
  inCodeBlock : Bool
  content : List (List Char)
  filename : Option (List Char)
  nesting : Nat
  files : FileMap
  deriving Repr

def fbInit : FbState := ⟨false, [], none, 0, []⟩

/-- One line of the fallback scan, mirroring the branch order of the
source loop (`trimmedLine` is inlined at its use sites). -/
def fbStep (st : FbState) (line : List Char) : FbState :=
  if st.inCodeBlock = false then
    if isOpenFence line then
      { st with inCodeBlock := true, content := [], filename := none, nesting := 0 }
    else st
  else
    if st.content = [] ∧ isFallbackFilenameLine line then
      { st with filename := some (fallbackFilenameChars line) }
    else if isNestedMarker line then
      { st with
        nesting :=
          if containsSeq ("```".data) line ∧ ¬ (line.take 3 = "```".data) then
            (if st.nesting > 0 then 0 else 1)
          else st.nesting
        content := st.content ++ [line] }
    else if trimList line = "```".data ∧ line.take 3 = "```".data ∧ st.nesting = 0 then
      { st with
        inCodeBlock := false
        files :=
          match st.filename with
          | some f =>
            if f ≠ [] ∧ st.content ≠ [] then
              mapSet st.files (fallbackClean f) (joinTrim st.content)
            else st.files
          | none => st.files }
    else
      { st with content := st.content ++ [line] }

/-- The fallback pass of the extractor. -/
def extractCodeBlocksWithNestedBackticks (response : String) : FileMap :=
  ((splitLines response.data).foldl fbStep fbInit).files

/-- `parseGeneratedFiles` from runner.ts: the primary regex pass, and,
only when it produced zero files, the fallback pass merged into the
(empty) map. -/
def parseGeneratedFiles (response : String) : FileMap :=
  let files := primaryExtract response
  if files = [] then
    (extractCodeBlocksWithNestedBackticks response).foldl
      (fun acc kv => mapSet acc kv.1 kv.2) files
  else files

/-! ## Check runner (runner.ts `runEvalTests`)

The close handler of the vitest subprocess first tries to parse a
structured JSON report out of stdout; on any parse failure it falls back
to interpreting the exit code alone.  `parsed` models the (possibly
absent) successfully parsed report; `exitCode` models the Node exit
code, which can be null when the process was killed by a signal. -/

/-- The optional fields recovered from the structured vitest report. -/
structure VitestReport where
  success : Option Bool
  numPassedTests : Option Nat
  numTotalTests : Option Nat
  deriving DecidableEq, Repr

/-- The resolution logic of the close handler of `runEvalTests`. -/
def interpretVitestOutcome (parsed : Option VitestReport) (exitCode : Option Int)
    (output : String) : TestOutcome :=
  match parsed with
  | some r =>
    { passed := r.success.getD (exitCode == some 0)
      testsPassed := r.numPassedTests.getD 0
      testsTotal := r.numTotalTests.getD 0
      output := output }
  | none =>
    { passed := exitCode == some 0
      testsPassed := if exitCode == some 0 then 1 else 0
      testsTotal := 1
      output := output }

/-! ## Direct-call strategy (runner.ts `runSDKEval`)

The model takes the response text and the would-be check outcome and
returns the constructed RunResult together with a flag recording whether
the check runner was reached (the source returns early, before
`runEvalTests`, when no files were written).  `writeGeneratedFiles`
writes one file per map entry and returns the list of keys. -/

def runSDKEvalModel (response : String) (runNumber : Nat) (usage : Usage)
    (durationMs : Nat) (testResult : TestOutcome) : RunResult × Bool :=
  let generatedFiles := parseGeneratedFiles response
  let writtenFiles := generatedFiles.map (·.1)
  if writtenFiles.length = 0 then
    ({ runNumber := runNumber, passed := false, testsPassed := 0, testsTotal := 1
       durationMs := durationMs
       error := some "No files were generated by the agent"
       agentOutput := some response, generatedFiles := some [], usage := some usage },
     false)
  else
    ({ runNumber := runNumber, passed := testResult.passed
       testsPassed := testResult.testsPassed, testsTotal := testResult.testsTotal
       durationMs := durationMs, agentOutput := some response
       generatedFiles := some writtenFiles
       error := if testResult.passed then none else some testResult.output
       usage := some usage },
     true)

/-! ## Agent-session strategy (agent-runner.ts) -/

/-- Result of `executeAgent` (agent-runner.ts `AgentExecutionResult`). -/
structure AgentExecResult where
  exitCode : Nat
  stdout : String
  stderr : String
  success : Bool
  usage : Option Usage := none
  deriving DecidableEq, Repr

/-- The RunResult precursor built at the end of `runAgentEval`: tests
have not run yet, `passed` is false, and a non-successful agent leaves
an error string naming the exit code. -/
def agentPrecursor (runNumber : Nat) (durationMs : Nat) (ar : AgentExecResult)
    (generatedFiles : List String) : RunResult :=
  { runNumber := runNumber
    passed := false
    testsPassed := 0
    testsTotal := 0
    durationMs := durationMs
    agentOutput := some (ar.stdout ++
      (if ar.stderr ≠ "" then "\n\nSTDERR:\n" ++ ar.stderr else ""))
    generatedFiles := some generatedFiles
    usage := ar.usage
    error := if ar.success then none
             else some ("Agent exited with code " ++ natToString ar.exitCode) }

/-- The agent branch of `runEval`: when the agent left files behind, the
check suite decides pass/fail and the error field keeps the agent error
on success; otherwise the trial fails with the no-files error. -/
def mergeAgentTrial (agentResult : RunResult) (testResult : TestOutcome) : RunResult :=
  match agentResult.generatedFiles with
  | some fs =>
    if fs.length > 0 then
      { agentResult with
        passed := testResult.passed
        testsPassed := testResult.testsPassed
        testsTotal := testResult.testsTotal
        error := if testResult.passed then agentResult.error else some testResult.output }
    else
      { agentResult with
        error := some (agentResult.error.getD "No files were generated by the agent") }
  | none =>
    { agentResult with
      error := some (agentResult.error.getD "No files were generated by the agent") }

/-! ## Trial orchestration (runner.ts `runEval`)

The loop body of `runEval` is wrapped in try/catch: a trial either
returns a RunResult (plus the usage it contributes to the running
totals) or throws a message.  A thrown trial is recorded as a failed
RunResult; the usage totals, the pass count, the pass rate and the run
list are computed exactly as in the source. -/

/-- The catch branch of the trial loop. -/
def recordTrialOutcome (i : Nat) (t : Except String (RunResult × Option Usage)) :
    RunResult :=
  match t with
  | .ok (r, _) => r
  | .error msg =>
    { runNumber := i, passed := false, testsPassed := 0, testsTotal := 1
      durationMs := 0, error := some msg }

/-- The usage snapshots accumulated into `totalUsage` by the loop. -/
def trialUsages (cfgRuns : Nat) (trial : Nat → Except String (RunResult × Option Usage)) :
    List Usage :=
  (List.range cfgRuns).filterMap (fun k =>
    match trial (k + 1) with
    | .ok (_, u) => u
    | .error _ => none)

/-- The recorded run list of the trial loop. -/
def trialRuns (cfgRuns : Nat)
    (trial : Nat → Except String (RunResult × Option Usage)) : List RunResult :=
  (List.range cfgRuns).map (fun k => recordTrialOutcome (k + 1) (trial (k + 1)))

/-- Summed input tokens of the accumulated usage snapshots. -/
def trialUsageIn (cfgRuns : Nat)
    (trial : Nat → Except String (RunResult × Option Usage)) : Nat :=
  ((trialUsages cfgRuns trial).map (·.inputTokens)).sum

/-- Summed output tokens of the accumulated usage snapshots. -/
def trialUsageOut (cfgRuns : Nat)
    (trial : Nat → Except String (RunResult × Option Usage)) : Nat :=
  ((trialUsages cfgRuns trial).map (·.outputTokens)).sum

/-- `runEval`: run the configured number of trials (1-indexed), record
every outcome, and aggregate. -/
def runEval (evalName : String) (cfgRuns : Nat)
    (trial : Nat → Except String (RunResult × Option Usage)) : EvalResult :=
  { evalName := evalName
    totalRuns := cfgRuns
    passedRuns := ((trialRuns cfgRuns trial).filter (·.passed)).length
    passRate :=
      ((((trialRuns cfgRuns trial).filter (·.passed)).length : ℚ)) / (cfgRuns : ℚ)
    runs := trialRuns cfgRuns trial
    avgDurationMs :=
      (((((trialRuns cfgRuns trial).map (·.durationMs)).sum : ℕ)) : ℚ) /
        ((trialRuns cfgRuns trial).length : ℚ)
    totalUsage :=
      if 0 < trialUsageIn cfgRuns trial ∨ 0 < trialUsageOut cfgRuns trial then
        some ⟨trialUsageIn cfgRuns trial, trialUsageOut cfgRuns trial⟩
      else none }

/-! ## Experiment aggregation (runner.ts `runExperiment`) -/

/-- Summed total runs across evals (`totalRuns` in `runExperiment`). -/
def expTotalRuns (rs : List EvalResult) : Nat := (rs.map (·.totalRuns)).sum

/-- Summed passed runs across evals (`totalPassed` in `runExperiment`). -/
def expTotalPassed (rs : List EvalResult) : Nat := (rs.map (·.passedRuns)).sum

/-- The overall pass rate: trial-weighted, with the explicit zero guard
of the source. -/
def overallOf (rs : List EvalResult) : ℚ :=
  if 0 < expTotalRuns rs then (expTotalPassed rs : ℚ) / (expTotalRuns rs : ℚ) else 0

/-- Summed per-eval input-token aggregates, absent ones taken as zero. -/
def expUsageIn (rs : List EvalResult) : Nat :=
  (rs.map (fun r => (r.totalUsage.map (·.inputTokens)).getD 0)).sum

/-- Summed per-eval output-token aggregates, absent ones taken as zero. -/
def expUsageOut (rs : List EvalResult) : Nat :=
  (rs.map (fun r => (r.totalUsage.map (·.outputTokens)).getD 0)).sum

/-- The experiment-level usage aggregate: sum the per-eval aggregates,
treating an absent one as zero, and keep the sum only when some
component is nonzero. -/
def experimentUsage (rs : List EvalResult) : Option Usage :=
  if 0 < expUsageIn rs ∨ 0 < expUsageOut rs then
    some ⟨expUsageIn rs, expUsageOut rs⟩
  else none

/-- The result assembly of `runExperiment` over the per-eval results. -/
def runExperimentAgg (name : String) (rs : List EvalResult) : ExperimentResultM :=
  { experimentName := name
    evalResults := rs
    overallPassRate := overallOf rs
    totalUsage := experimentUsage rs }

/-! ## Comparator (comparison.ts `compareExperiments`) -/

/-- JavaScript `new Map(entries).get(name)`: with duplicate keys the
later entry wins, so the lookup returns the last matching element. -/
def lastByName (rs : List EvalResult) (name : String) : Option EvalResult :=
  (rs.filter (fun r => r.evalName == name)).getLast?

/-- `compareExperiments`: iterate the with-skill results, pair each with
the baseline result of the same name, skip unmatched names, and take
the overall difference. -/
def compareExperiments (baseline withSkill : ExperimentResultM) : ComparisonResult :=
  let evalComparisons := withSkill.evalResults.filterMap (fun wr =>
    (lastByName baseline.evalResults wr.evalName).map (fun br =>
      { evalName := wr.evalName
        baselinePassRate := br.passRate
        withSkillPassRate := wr.passRate
        improvement := wr.passRate - br.passRate
        baselineRuns := br.totalRuns
        withSkillRuns := wr.totalRuns }))
  { evalComparisons := evalComparisons
    overallImprovement := withSkill.overallPassRate - baseline.overallPassRate }

/-! ## Workspace naming (runner.ts `runEval` / `createWorkspace`) -/

/-- The per-trial run id template of the trial loop. -/
def runId (evalName cfgName : String) (i ts : Nat) : String :=
  evalName ++ "-" ++ cfgName ++ "-run" ++ natToString i ++ "-" ++ natToString ts

/-- `createWorkspace`: the directory nested under the scratch root. -/
def workspacePath (baseDir : String) (rid : String) : String :=
  baseDir ++ "/.workspaces/" ++ rid

/-! ## Agent timeout machinery (agent-runner.ts `executeAgent`)

The source arms a timer at `timeout * 1000` ms whose callback sets
`timedOut`, sends SIGTERM, and arms a second (never cleared) timer that
fires 5000 ms later and sends SIGKILL only if `agent.killed` is still
false.  Node sets `subprocess.killed` to true as soon as `kill()` has
successfully sent any signal — it does not mean the process exited.
The simulation below replays that event sequence against a declared
process behaviour. -/

/-- Behaviour of the spawned agent process. -/
structure AgentProcessBehavior where
  /-- Millisecond at which the process exits on its own; none = never. -/
  selfExitAt : Option Nat
  /-- Whether the process terminates when SIGTERM is delivered. -/
  exitsOnSigterm : Bool
  deriving DecidableEq, Repr

/-- Observable outcome of the timeout machinery. -/
structure TimeoutSimOutcome where
  sigtermSentAt : Option Nat
  sigkillSentAt : Option Nat
  processExitAt : Option Nat
  timedOut : Bool
  deriving DecidableEq, Repr

/-- Replay of the two timers of `executeAgent` for a given timeout (in
seconds, as configured) and process behaviour. -/
def simulateExecuteAgentTimeout (timeoutSec : Nat) (p : AgentProcessBehavior) :
    TimeoutSimOutcome :=
  let tMs := timeoutSec * 1000
  match p.selfExitAt with
  | some t =>
    if t < tMs then
      -- the close handler clears the first timer before it fires
      { sigtermSentAt := none, sigkillSentAt := none
        processExitAt := some t, timedOut := false }
    else
      -- the first timer fires at tMs: timedOut := true, SIGTERM is sent;
      -- the send succeeds, so Node sets subprocess.killed := true
      let killedFlag := true
      -- the second timer fires at tMs + 5000 and sends SIGKILL only if
      -- the killed flag is still false
      let sigkill := if killedFlag then none else some (tMs + 5000)
      if p.exitsOnSigterm then
        { sigtermSentAt := some tMs, sigkillSentAt := sigkill
          processExitAt := some tMs, timedOut := true }
      else
        { sigtermSentAt := some tMs, sigkillSentAt := sigkill
          processExitAt := some t, timedOut := true }
  | none =>
    let killedFlag := true
    let sigkill := if killedFlag then none else some (tMs + 5000)
    if p.exitsOnSigterm then
      { sigtermSentAt := some tMs, sigkillSentAt := sigkill
        processExitAt := some tMs, timedOut := true }
    else
      -- the process ignores SIGTERM, SIGKILL is never sent, the process
      -- never exits and the close handler never runs
      { sigtermSentAt := some tMs, sigkillSentAt := sigkill
        processExitAt := none, timedOut := true }

/-! ## Map lemmas -/

theorem keys_mapSet (m : FileMap) (k v : String) :
    keys (mapSet m k v) =
      if m.any (fun p => p.1 == k) then keys m else keys m ++ [k] := by
  unfold mapSet keys
  split
  · rw [List.map_map]
    refine List.map_congr_left ?_
    intro p _
    by_cases hp : p.1 = k
    · simp [Function.comp, hp]
    · simp [Function.comp, hp]
  · simp

theorem nodup_keys_mapSet (m : FileMap) (k v : String)
    (h : (keys m).Nodup) : (keys (mapSet m k v)).Nodup := by
  rw [keys_mapSet]
  split
  · exact h
  · rename_i hany
    have hk : k ∉ keys m := by
      intro hmem
      rcases List.mem_map.mp hmem with ⟨p, hp, hpk⟩
      exact hany (List.any_eq_true.mpr ⟨p, hp, by simp [hpk]⟩)
    refine List.Nodup.append h (List.nodup_singleton k) ?_
    intro a ha hb
    simp only [List.mem_singleton] at hb
    exact hk (hb ▸ ha)

theorem foldl_mapSet_of_disjoint : ∀ (m acc : FileMap),
    (keys acc ++ keys m).Nodup →
    m.foldl (fun a kv => mapSet a kv.1 kv.2) acc = acc ++ m := by
  intro m
  induction m with
  | nil => intro acc _; simp
  | cons kv t ih =>
    intro acc h
    have hsplit : keys acc ++ keys (kv :: t) = keys acc ++ kv.1 :: keys t := by
      simp [keys]
    rw [hsplit] at h
    have hk : kv.1 ∉ keys acc := by
      intro hmem
      have hdisj := (List.nodup_append.mp h).2.2
      exact hdisj hmem (List.mem_cons_self kv.1 (keys t))
    have hnotany : ¬ (acc.any (fun p => p.1 == kv.1) = true) := by
      intro hany
      rcases List.any_eq_true.mp hany with ⟨p, hp, hpk⟩
      exact hk (List.mem_map.mpr ⟨p, hp, (beq_iff_eq).mp hpk⟩)
    have hstep : mapSet acc kv.1 kv.2 = acc ++ [kv] := by
      unfold mapSet
      rw [if_neg hnotany]
    rw [List.foldl_cons, hstep, ih (acc ++ [kv]) ?_, List.append_assoc]
    · simp
    · have hkeys : keys (acc ++ [kv]) = keys acc ++ [kv.1] := by simp [keys]
      rw [hkeys, List.append_assoc]
      simpa using h

theorem fbStep_nodup (st : FbState) (line : List Char)
    (h : (keys st.files).Nodup) : (keys (fbStep st line).files).Nodup := by
  unfold fbStep
  repeat' split
  all_goals first
    | exact h
    | exact nodup_keys_mapSet _ _ _ h

theorem fb_files_nodup (response : String) :
    (keys (extractCodeBlocksWithNestedBackticks response)).Nodup := by
  unfold extractCodeBlocksWithNestedBackticks
  have hgen : ∀ (ls : List (List Char)) (st : FbState),
      (keys st.files).Nodup → (keys (ls.foldl fbStep st).files).Nodup := by
    intro ls
    induction ls with
    | nil => intro st h; exact h
    | cons l t ih => intro st h; exact ih _ (fbStep_nodup st l h)
  exact hgen _ fbInit (by simp [fbInit, keys])

/-! ## Concrete fixtures used by the claim theorems -/

/-- A model response whose sole top-level fence contains, inside a JSDoc
comment, indented/star-prefixed lines that look like fence markers. -/
def c4Response : String :=
  "Here is the solution:\n\n```typescript\n// math.ts\n/**\n * Adds two numbers.\n * @example\n * ```ts\n * add(1, 2)\n * ```\n */\nexport function add(a: number, b: number): number \x7b\n  return a + b;\n\x7d\n```\n\nDone."

/-- The full intended content of the file declared in `c4Response`,
including the nested example fence. -/
def c4Content : String :=
  "/**\n * Adds two numbers.\n * @example\n * ```ts\n * add(1, 2)\n * ```\n */\nexport function add(a: number, b: number): number \x7b\n  return a + b;\n\x7d"

/-! ## Claim theorems -/

/-- C3: the agent-session timeout machinery.  The claim states that a
graceful SIGTERM is requested at the timeout boundary and a forced
SIGKILL is issued five seconds later if the process has not exited.  On
the code this is false: `agent.kill("SIGTERM")` makes Node set
`subprocess.killed` to true (the flag records that a signal was sent,
not that the process exited), so the five-second follow-up check
`!agent.killed` never passes and SIGKILL is never sent.  For a process
that ignores SIGTERM and never exits on its own, with a one-second
timeout, SIGTERM goes out at 1000 ms, no SIGKILL is ever sent (in
particular not at 6000 ms as claimed), the process never exits, and the
close handler never produces a TrialResult. -/
theorem executeAgent_timeout_never_sigkills :
    simulateExecuteAgentTimeout 1 ⟨none, false⟩ =
      { sigtermSentAt := some 1000, sigkillSentAt := none
        processExitAt := none, timedOut := true } ∧
    (simulateExecuteAgentTimeout 1 ⟨none, false⟩).sigkillSentAt ≠ some 6000 := by
  constructor
  · rfl
  · intro h
    simp [simulateExecuteAgentTimeout] at h

/-- C4: the fallback line-oriented scan is reached exactly when the
primary regex pass extracts zero files (and then the parse result is
exactly the fallback result); and on a response whose sole top-level
fence contains star-prefixed nested fence markers inside a JSDoc
comment, the extractor does not close the outer fence at those lines:
the full content is recovered under the declared filename. -/
theorem parseGeneratedFiles_fallback_iff_primary_empty (r : String) :
    (primaryExtract r ≠ [] → parseGeneratedFiles r = primaryExtract r) ∧
    (primaryExtract r = [] →
      parseGeneratedFiles r = extractCodeBlocksWithNestedBackticks r) ∧
    parseGeneratedFiles c4Response = [("math.ts", c4Content)] := by
  refine ⟨?_, ?_, ?_⟩
  · intro h
    unfold parseGeneratedFiles
    rw [if_neg h]
  · intro h
    unfold parseGeneratedFiles
    rw [if_pos h]
    rw [h]
    have := foldl_mapSet_of_disjoint (extractCodeBlocksWithNestedBackticks r) []
      (by simpa [keys] using fb_files_nodup r)
    simpa using this
  · decide

/-- Witness for C4 at a concrete response: the primary pass finds the
file, so the fallback is not consulted. -/
theorem parseGeneratedFiles_fallback_iff_primary_empty_witness :
    primaryExtract c4Response ≠ [] ∧
    parseGeneratedFiles c4Response = primaryExtract c4Response :=
  ⟨by decide, (parseGeneratedFiles_fallback_iff_primary_empty c4Response).1 (by decide)⟩

/-- C5 counterexample: at a response with no fenced blocks, the trial is
recorded as failed without invoking the check runner, but the error
string is not the claimed "no files were generated" (the code uses
"No files were generated by the agent"). -/
theorem runSDKEval_error_string_counterexample :
    (runSDKEvalModel "hello there" 1 ⟨0, 0⟩ 0 ⟨true, 0, 0, ""⟩).1.passed = false ∧
    (runSDKEvalModel "hello there" 1 ⟨0, 0⟩ 0 ⟨true, 0, 0, ""⟩).2 = false ∧
    (runSDKEvalModel "hello there" 1 ⟨0, 0⟩ 0 ⟨true, 0, 0, ""⟩).1.error ≠
      some "no files were generated" := by
  decide

/-- C5 (amended): in the direct-call strategy, whenever both extraction
passes yield zero files, the trial is recorded as a failed TrialResult
with passed = false and error "No files were generated by the agent",
and the check runner is not invoked (the Boolean component of the model
records whether `runEvalTests` was reached).  No exception is thrown:
the path is a total early return. -/
theorem runSDKEval_zero_files_failed_trial (response : String) (rn : Nat)
    (u : Usage) (d : Nat) (t : TestOutcome)
    (h : parseGeneratedFiles response = []) :
    (runSDKEvalModel response rn u d t).1.passed = false ∧
    (runSDKEvalModel response rn u d t).1.error =
      some "No files were generated by the agent" ∧
    (runSDKEvalModel response rn u d t).2 = false := by
  unfold runSDKEvalModel
  simp [h]

/-- Witness for C5 at a concrete fence-free response. -/
theorem runSDKEval_zero_files_failed_trial_witness :
    parseGeneratedFiles "just words, no fences" = [] ∧
    ((runSDKEvalModel "just words, no fences" 3 ⟨1, 2⟩ 9 ⟨true, 1, 1, "x"⟩).1.passed = false ∧
     (runSDKEvalModel "just words, no fences" 3 ⟨1, 2⟩ 9 ⟨true, 1, 1, "x"⟩).1.error =
       some "No files were generated by the agent" ∧
     (runSDKEvalModel "just words, no fences" 3 ⟨1, 2⟩ 9 ⟨true, 1, 1, "x"⟩).2 = false) :=
  ⟨by decide,
   runSDKEval_zero_files_failed_trial "just words, no fences" 3 ⟨1, 2⟩ 9
     ⟨true, 1, 1, "x"⟩ (by decide)⟩

/-- C6: when the structured vitest report cannot be parsed, the close
handler falls back to the exit code: zero gives passed with one check of
one, any nonzero code gives failed with zero of one.  The fallback is a
resolve, never a rejection: `interpretVitestOutcome` is total, so the
parse failure is not propagated as an error. -/
theorem runEvalTests_parse_fallback_exit_code (c : Int) (out : String) :
    (c = 0 → interpretVitestOutcome none (some c) out =
      { passed := true, testsPassed := 1, testsTotal := 1, output := out }) ∧
    (c ≠ 0 → interpretVitestOutcome none (some c) out =
      { passed := false, testsPassed := 0, testsTotal := 1, output := out }) := by
  constructor
  · rintro rfl
    rfl
  · intro h
    unfold interpretVitestOutcome
    have hb : ((some c == some (0 : Int)) : Bool) = false := by
      simp [h]
    rw [hb]
    simp

/-- Witness for C6 at exit codes 0 and 1. -/
theorem runEvalTests_parse_fallback_exit_code_witness :
    interpretVitestOutcome none (some 0) "out" =
      { passed := true, testsPassed := 1, testsTotal := 1, output := "out" } ∧
    interpretVitestOutcome none (some 1) "out" =
      { passed := false, testsPassed := 0, testsTotal := 1, output := "out" } :=
  ⟨(runEvalTests_parse_fallback_exit_code 0 "out").1 rfl,
   (runEvalTests_parse_fallback_exit_code 1 "out").2 (by decide)⟩

/-- C1: for every configuration and task, the aggregated result reports
totalRuns equal to the configured trial count and a run list of exactly
that length even when trials throw; a trial that throws is recorded in
the run list at its position as a failed TrialResult carrying the thrown
message; passedRuns never exceeds totalRuns; and the pass rate is the
exact quotient passedRuns / totalRuns (rationals model the single
floating division of the source, which divides unrounded counters). -/
theorem runEval_total_runs_invariant (en : String) (n : Nat)
    (trial : Nat → Except String (RunResult × Option Usage)) :
    (runEval en n trial).totalRuns = n ∧
    (runEval en n trial).runs.length = n ∧
    (runEval en n trial).passedRuns ≤ (runEval en n trial).totalRuns ∧
    (runEval en n trial).passRate =
      ((runEval en n trial).passedRuns : ℚ) / ((runEval en n trial).totalRuns : ℚ) ∧
    (∀ i, 1 ≤ i → i ≤ n → ∀ msg, trial i = .error msg →
      (runEval en n trial).runs[i - 1]? =
        some { runNumber := i, passed := false, testsPassed := 0, testsTotal := 1
               durationMs := 0, error := some msg }) := by
  refine ⟨rfl, ?_, ?_, rfl, ?_⟩
  · show (trialRuns n trial).length = n
    simp [trialRuns]
  · show ((trialRuns n trial).filter (·.passed)).length ≤ n
    calc ((trialRuns n trial).filter (·.passed)).length
        ≤ (trialRuns n trial).length := List.length_filter_le _ _
      _ = n := by simp [trialRuns]
  · intro i h1 h2 msg hmsg
    show (trialRuns n trial)[i - 1]? = _
    unfold trialRuns
    rw [List.getElem?_map]
    have hrange : (List.range n)[i - 1]? = some (i - 1) := by
      rw [List.getElem?_range]
      omega
    rw [hrange]
    have hi : i - 1 + 1 = i := by omega
    show some (recordTrialOutcome (i - 1 + 1) (trial (i - 1 + 1))) = _
    rw [hi, hmsg]
    rfl

/-- Witness for C1: two trials, the first of which throws. -/
theorem runEval_total_runs_invariant_witness :
    (runEval "t" 2 (fun i => if i = 1 then .error "boom"
        else .ok ({ runNumber := i, passed := true, testsPassed := 3
                    testsTotal := 3, durationMs := 10 }, some ⟨5, 7⟩))).totalRuns = 2 ∧
    (runEval "t" 2 (fun i => if i = 1 then .error "boom"
        else .ok ({ runNumber := i, passed := true, testsPassed := 3
                    testsTotal := 3, durationMs := 10 }, some ⟨5, 7⟩))).runs[0]? =
      some { runNumber := 1, passed := false, testsPassed := 0, testsTotal := 1
             durationMs := 0, error := some "boom" } :=
  ⟨(runEval_total_runs_invariant "t" 2 _).1,
   (runEval_total_runs_invariant "t" 2 _).2.2.2.2 1 (by decide) (by decide) "boom" rfl⟩

/-- C2: the overall pass rate of an experiment is the trial-weighted
quotient of summed passed runs over summed total runs, for every list of
per-eval results; and it differs from the arithmetic mean of the
per-eval pass rates, exhibited on one task with a single trial and one
with ten trials. -/
theorem overallPassRate_trial_weighted (rs : List EvalResult) :
    overallOf rs = (expTotalPassed rs : ℚ) / (expTotalRuns rs : ℚ) ∧
    overallOf
        [{ evalName := "one", totalRuns := 1, passedRuns := 1, passRate := 1
           runs := [], avgDurationMs := 0 },
         { evalName := "ten", totalRuns := 10, passedRuns := 5, passRate := 1 / 2
           runs := [], avgDurationMs := 0 }] ≠
      ((1 : ℚ) + 1 / 2) / 2 := by
  constructor
  · unfold overallOf
    rcases Nat.eq_zero_or_pos (expTotalRuns rs) with h | h
    · rw [if_neg (by omega), h]
      simp
    · rw [if_pos h]
  · norm_num [overallOf, expTotalRuns, expTotalPassed]

/-- C9: within one task and configuration, two distinct trial indices
give distinct workspace directory paths even at the same timestamp,
because the run id embeds the decimal trial index between fixed
separators. -/
theorem workspacePath_distinct_same_tick (base en cn : String) (i j ts : Nat)
    (hij : i ≠ j) :
    workspacePath base (runId en cn i ts) ≠ workspacePath base (runId en cn j ts) := by
  intro h
  apply hij
  have hrid : runId en cn i ts = runId en cn j ts := by
    have hd := congrArg String.data h
    simp only [workspacePath, String.data_append, List.append_assoc] at hd
    have h1 := List.append_cancel_left (List.append_cancel_left hd)
    exact String.ext h1
  have hd := congrArg String.data hrid
  simp only [runId, String.data_append, List.append_assoc] at hd
  have h2 := List.append_cancel_left (List.append_cancel_left
    (List.append_cancel_left (List.append_cancel_left hd)))
  have hlen : (natToString i).data.length = (natToString j).data.length := by
    have := congrArg List.length h2
    simp only [List.length_append] at this
    omega
  obtain ⟨hs, _⟩ := List.append_inj h2 hlen
  exact natToString_inj (String.ext hs)

/-- Witness for C9 at trial indices 1 and 2 with a shared timestamp. -/
theorem workspacePath_distinct_same_tick_witness :
    (1 : Nat) ≠ 2 ∧
    workspacePath "/tmp/evals" (runId "task" "baseline" 1 99) ≠
      workspacePath "/tmp/evals" (runId "task" "baseline" 2 99) :=
  ⟨by decide,
   workspacePath_distinct_same_tick "/tmp/evals" "task" "baseline" 1 2 99 (by decide)⟩

/-- C10: in agent mode, when the agent process failed (error string set
in the precursor) but left files behind and the check suite passes, the
merged TrialResult has passed = true while the error field still carries
the agent failure string, so passed = true does not imply an unset error
field. -/
theorem agent_failure_with_passing_checks (rn d : Nat) (ar : AgentExecResult)
    (files : List String) (t : TestOutcome)
    (hfail : ar.success = false) (hfiles : files ≠ []) (hpass : t.passed = true) :
    (mergeAgentTrial (agentPrecursor rn d ar files) t).passed = true ∧
    (mergeAgentTrial (agentPrecursor rn d ar files) t).error =
      some ("Agent exited with code " ++ natToString ar.exitCode) := by
  unfold mergeAgentTrial agentPrecursor
  simp only [hfail, hpass, Bool.false_eq_true, if_false, if_true]
  rw [if_pos (List.length_pos.mpr hfiles)]
  simp

/-- Witness for C10: the agent exits with code 2, leaves one file, the
checks pass. -/
theorem agent_failure_with_passing_checks_witness :
    (mergeAgentTrial
        (agentPrecursor 1 50 ⟨2, "out", "", false, none⟩ ["App.tsx"])
        ⟨true, 4, 4, "ok"⟩).passed = true ∧
    (mergeAgentTrial
        (agentPrecursor 1 50 ⟨2, "out", "", false, none⟩ ["App.tsx"])
        ⟨true, 4, 4, "ok"⟩).error =
      some ("Agent exited with code " ++ natToString 2) :=
  agent_failure_with_passing_checks 1 50 ⟨2, "out", "", false, none⟩ ["App.tsx"]
    ⟨true, 4, 4, "ok"⟩ rfl (by decide) rfl

theorem lastByName_mem (rs : List EvalResult) (name : String) (br : EvalResult)
    (h : lastByName rs name = some br) : br ∈ rs ∧ br.evalName = name := by
  unfold lastByName at h
  have hmem : br ∈ rs.filter (fun r => r.evalName == name) := by
    rcases List.mem_getLast?_eq_getLast (by rw [Option.mem_def]; exact h) with ⟨hne, heq⟩
    rw [heq]
    exact List.getLast_mem hne
  exact ⟨(List.mem_filter.mp hmem).1, beq_iff_eq.mp (List.mem_filter.mp hmem).2⟩

/-- C7: the comparator pairs tasks by name.  Every comparison entry
corresponds to an eval result of that name on each side, with the entry
pass rates taken from those results and the improvement equal to their
difference; a name present on only one side yields no entry; and the
overall improvement is the difference of the overall pass rates. -/
theorem compareExperiments_pairs_by_name (b w : ExperimentResultM) :
    (∀ e ∈ (compareExperiments b w).evalComparisons,
      (∃ br ∈ b.evalResults, br.evalName = e.evalName ∧ e.baselinePassRate = br.passRate) ∧
      (∃ wr ∈ w.evalResults, wr.evalName = e.evalName ∧ e.withSkillPassRate = wr.passRate) ∧
      e.improvement = e.withSkillPassRate - e.baselinePassRate) ∧
    (∀ name,
      ((¬ ∃ br ∈ b.evalResults, br.evalName = name) ∨
       (¬ ∃ wr ∈ w.evalResults, wr.evalName = name)) →
      ∀ e ∈ (compareExperiments b w).evalComparisons, e.evalName ≠ name) ∧
    (compareExperiments b w).overallImprovement =
      w.overallPassRate - b.overallPassRate := by
  have hmain : ∀ e ∈ (compareExperiments b w).evalComparisons,
      (∃ br ∈ b.evalResults, br.evalName = e.evalName ∧ e.baselinePassRate = br.passRate) ∧
      (∃ wr ∈ w.evalResults, wr.evalName = e.evalName ∧ e.withSkillPassRate = wr.passRate) ∧
      e.improvement = e.withSkillPassRate - e.baselinePassRate := by
    intro e he
    unfold compareExperiments at he
    simp only [List.mem_filterMap] at he
    obtain ⟨wr, hwr, heq⟩ := he
    cases hlb : lastByName b.evalResults wr.evalName with
    | none => rw [hlb] at heq; simp at heq
    | some br =>
      rw [hlb] at heq
      simp only [Option.map_some'] at heq
      obtain ⟨hbmem, hbname⟩ := lastByName_mem _ _ _ hlb
      have he2 : e =
          { evalName := wr.evalName, baselinePassRate := br.passRate
            withSkillPassRate := wr.passRate, improvement := wr.passRate - br.passRate
            baselineRuns := br.totalRuns, withSkillRuns := wr.totalRuns } :=
        (Option.some_inj.mp heq).symm
      subst he2
      exact ⟨⟨br, hbmem, hbname, rfl⟩, ⟨wr, hwr, rfl, rfl⟩, rfl⟩
  refine ⟨hmain, ?_, rfl⟩
  intro name hone e he hename
  obtain ⟨⟨br, hbmem, hbname, _⟩, ⟨wr, hwmem, hwname, _⟩, _⟩ := hmain e he
  rcases hone with hno | hno
  · exact hno ⟨br, hbmem, by rw [hbname, hename]⟩
  · exact hno ⟨wr, hwmem, by rw [hwname, hename]⟩

/-- Witness for C7: baseline 2/3 versus with-skill 3/3 on the same task
name, unmatched baseline task "only", delta exactly one third. -/
theorem compareExperiments_pairs_by_name_witness :
    (compareExperiments
        { experimentName := "baseline"
          evalResults :=
            [{ evalName := "t", totalRuns := 3, passedRuns := 2, passRate := 2 / 3
               runs := [], avgDurationMs := 0 },
             { evalName := "only", totalRuns := 3, passedRuns := 3, passRate := 1
               runs := [], avgDurationMs := 0 }]
          overallPassRate := 5 / 6 }
        { experimentName := "with-skill"
          evalResults :=
            [{ evalName := "t", totalRuns := 3, passedRuns := 3, passRate := 1
               runs := [], avgDurationMs := 0 }]
          overallPassRate := 1 }).overallImprovement = 1 - 5 / 6 ∧
    ∀ e ∈ (compareExperiments
        { experimentName := "baseline"
          evalResults :=
            [{ evalName := "t", totalRuns := 3, passedRuns := 2, passRate := 2 / 3
               runs := [], avgDurationMs := 0 },
             { evalName := "only", totalRuns := 3, passedRuns := 3, passRate := 1
               runs := [], avgDurationMs := 0 }]
          overallPassRate := 5 / 6 }
        { experimentName := "with-skill"
          evalResults :=
            [{ evalName := "t", totalRuns := 3, passedRuns := 3, passRate := 1
               runs := [], avgDurationMs := 0 }]
          overallPassRate := 1 }).evalComparisons, e.evalName ≠ "only" :=
  ⟨(compareExperiments_pairs_by_name _ _).2.2,
   (compareExperiments_pairs_by_name _ _).2.1 "only"
     (Or.inr (by
       rintro ⟨wr, hw, hn⟩
       simp only [List.mem_singleton] at hw
       rw [hw] at hn
       exact absurd hn (by decide)))⟩

/-- C8: the per-eval and the experiment-level token-usage aggregates are
present exactly when one of the summed token counts is nonzero; when
every underlying value is zero, or no trial contributed a usage
snapshot, the field is `none`, never a zero-valued record. -/
theorem usage_aggregates_present_iff_nonzero (en : String) (n : Nat)
    (trial : Nat → Except String (RunResult × Option Usage)) (rs : List EvalResult) :
    ((runEval en n trial).totalUsage = none ↔
      trialUsageIn n trial = 0 ∧ trialUsageOut n trial = 0) ∧
    ((runEval en n trial).totalUsage.isSome = true ↔
      0 < trialUsageIn n trial ∨ 0 < trialUsageOut n trial) ∧
    (∀ u, (runEval en n trial).totalUsage = some u →
      u = ⟨trialUsageIn n trial, trialUsageOut n trial⟩) ∧
    (trialUsages n trial = [] → (runEval en n trial).totalUsage = none) ∧
    ((runExperimentAgg en rs).totalUsage = none ↔
      expUsageIn rs = 0 ∧ expUsageOut rs = 0) ∧
    ((runExperimentAgg en rs).totalUsage.isSome = true ↔
      0 < expUsageIn rs ∨ 0 < expUsageOut rs) := by
  have hru : (runEval en n trial).totalUsage =
      (if 0 < trialUsageIn n trial ∨ 0 < trialUsageOut n trial then
        some ⟨trialUsageIn n trial, trialUsageOut n trial⟩ else none) := rfl
  have hex : (runExperimentAgg en rs).totalUsage =
      (if 0 < expUsageIn rs ∨ 0 < expUsageOut rs then
        some ⟨expUsageIn rs, expUsageOut rs⟩ else none) := rfl
  refine ⟨?_, ?_, ?_, ?_, ?_, ?_⟩
  · rw [hru]
    by_cases hpos : 0 < trialUsageIn n trial ∨ 0 < trialUsageOut n trial
    · rw [if_pos hpos]
      simp only [reduceCtorEq, false_iff]
      omega
    · rw [if_neg hpos]
      simp only [true_iff]
      omega
  · rw [hru]
    by_cases hpos : 0 < trialUsageIn n trial ∨ 0 < trialUsageOut n trial
    · rw [if_pos hpos]
      simpa using hpos
    · rw [if_neg hpos]
      simpa using hpos
  · intro u hu
    rw [hru] at hu
    by_cases hpos : 0 < trialUsageIn n trial ∨ 0 < trialUsageOut n trial
    · rw [if_pos hpos] at hu
      exact (Option.some_inj.mp hu).symm
    · rw [if_neg hpos] at hu
      exact absurd hu (by simp)
  · intro h
    rw [hru, if_neg]
    rw [not_or]
    constructor
    · simp [trialUsageIn, h]
    · simp [trialUsageOut, h]
  · rw [hex]
    by_cases hpos : 0 < expUsageIn rs ∨ 0 < expUsageOut rs
    · rw [if_pos hpos]
      simp only [reduceCtorEq, false_iff]
      omega
    · rw [if_neg hpos]
      simp only [true_iff]
      omega
  · rw [hex]
    by_cases hpos : 0 < expUsageIn rs ∨ 0 < expUsageOut rs
    · rw [if_pos hpos]
      simpa using hpos
    · rw [if_neg hpos]
      simpa using hpos

/-- Witness for C8: a run where no trial reported usage keeps the
aggregate absent. -/
theorem usage_aggregates_present_iff_nonzero_witness :
    trialUsages 1 (fun _ => .error "down") = [] ∧
    (runEval "t" 1 (fun _ => .error "down")).totalUsage = none :=
  ⟨rfl,
   (usage_aggregates_present_iff_nonzero "t" 1 (fun _ => .error "down") []).2.2.2.1 rfl⟩

end SkillEvals
